import Mathlib

/-!
Verification of the enflag configuration-binding library (atelpis/enflag).

The Go sources are shallowly embedded. Conventions:

* `ExecState.out` models the byte stream written to `flag.CommandLine.Output()`
  (the stream the flag package uses for its own usage text); one list entry per
  `fmt.Fprintf`/`Write` call, in order.
* `ExecState.exitCode` models `os.Exit c`: once it is `some c`, no further
  statement of the Go function runs.
* A Go parser `func(string) (T, error)` is modelled as `String → T × Bool`,
  the `Bool` being `true` exactly when the returned error is non-nil (Go
  parsers return a value, usually the zero value, alongside an error).
* A Go pointer-to-scalar target (`**url.URL`, `**time.Time`, ...) is modelled
  as `Option`, `none` standing for `nil`.
* The external flag registry is modelled by its observable contract: a
  registered flag's callback runs during the global `Parse` step exactly when
  the command line provides a value for it (`flagArg : Option String`); a
  callback returning an error makes `flag.CommandLine` (ExitOnError) exit
  with status code 2.
-/

namespace Enflag

/-- Target/output/exit state threaded through a resolution step. `out` is the
stream `flag.CommandLine.Output()`; `exitCode` is set by `os.Exit`. -/
structure ExecState (T : Type) where
  target : T
  out : List String
  exitCode : Option Nat
deriving DecidableEq

/-- Observable effect of a finalize call (`Bind`) followed by the global
`Parse` step: final target, diagnostics stream, exit status, and the flag
names registered with the external registry. -/
structure BindEffect (T : Type) where
  target : T
  out : List String
  exitCode : Option Nat
  registeredFlags : List String
deriving DecidableEq

/-! ### Scalar parsers (src/binder.go, src/flag.go, spec section 4.1) -/

/-- The string parser: identity, never fails (src/binder.go lines 96-99). -/
def goStringParse (s : String) : String × Bool := (s, false)

/-- Decimal value of a digit list, most significant first. -/
def digitsVal (ds : List Char) : Nat :=
  ds.foldl (fun a c => a * 10 + (c.toNat - 48)) 0

/-- Model of `strconv.Atoi` on a 64-bit platform (used for `int` targets,
src/binding.go line 181): optional sign, base-10 digits; syntax errors
return 0 with a non-nil error; out-of-range values are clamped to the
int64 range and also carry a non-nil error. -/
def goAtoi (s : String) : Int × Bool :=
  let split : Bool × List Char :=
    match s.data with
    | '-' :: rest => (true, rest)
    | '+' :: rest => (false, rest)
    | cs => (false, cs)
  let neg := split.1
  let ds := split.2
  if ds.isEmpty || !(ds.all Char.isDigit) then (0, true)
  else
    let v : Int := if neg then -(digitsVal ds : Int) else (digitsVal ds : Int)
    if v < -(2 ^ 63) then (-(2 ^ 63), true)
    else if (2 ^ 63 : Int) ≤ v then (2 ^ 63 - 1, true)
    else (v, false)

/-- Model of `parsers.Ptr` (src/binding.go line 220) and of the inline
pointer-lifting closures of src/binder.go lines 221-224: run the scalar
parser and return the address of its result, forwarding the error. -/
def goPtrParser {T : Type} (parser : String → T × Bool) : String → Option T × Bool :=
  fun s =>
    let q := parser s
    (some q.1, q.2)

/-! ### `strings.Split` / `strings.Join` models -/

/-- One step bound: `goSplitAux` consumes at least one character of input per
recursive call, so `length + 1` fuel always suffices; the fuel-exhausted
branch is unreachable for that fuel and exists only to keep the recursion
structural. -/
def goSplitAux (sep : List Char) : Nat → List Char → List Char → List (List Char)
  | 0, cs, acc => [acc.reverse ++ cs]
  | _ + 1, [], acc => [acc.reverse]
  | fuel + 1, c :: rest, acc =>
    if sep.isPrefixOf (c :: rest) then
      acc.reverse :: goSplitAux sep fuel (List.drop sep.length (c :: rest)) []
    else
      goSplitAux sep fuel rest (c :: acc)

/-- Model of Go `strings.Split(s, sep)`: cuts `s` around every non-overlapping
instance of `sep`, left to right; with an empty separator it splits into
individual runes. -/
def goSplit (s sep : String) : List String :=
  if sep = "" then s.data.map (fun c => String.mk [c])
  else (goSplitAux sep.data (s.data.length + 1) s.data []).map String.mk

/-- Model of Go `strings.Join(parts, sep)`. -/
def goJoin (sep : String) : List String → String
  | [] => ""
  | [x] => x
  | x :: rest => x ++ sep ++ goJoin sep rest

/-- Element-wise run of a scalar parser: `some vs` when every string parses
without error, `none` as soon as one fails. -/
def parseAllOk {T : Type} (parser : String → T × Bool) : List String → Option (List T)
  | [] => some []
  | s :: rest =>
    let q := parser s
    if q.2 then none
    else (parseAllOk parser rest).map (fun l => q.1 :: l)

/-! ### Legacy resolution pipeline (src/binding.go lines 355-422) -/

/-- The diagnostic of src/binding.go line 361 (also src/binder.go line 400):
`fmt.Fprintf(flag.CommandLine.Output(), "Unable to parse env-variable %s as type %T\n", ...)`. -/
def legacyEnvMsg (envName typeName : String) : String :=
  "Unable to parse env-variable " ++ envName ++ " as type " ++ typeName ++ "\n"

/-- Environment block of `handleVar` (src/binding.go lines 356-372): if the
variable is non-empty, parse it; on error print the diagnostic and, unless
`isTestEnv`, call `os.Exit(2)` (skipping the assignment); otherwise fall
through and store the parser's returned value. -/
def handleVarEnv {T : Type} (isTestEnv : Bool) (envName typeName : String)
    (parser : String → T × Bool) (env : String → String) (st : ExecState T) : ExecState T :=
  let envVal := env envName
  if envVal ≠ "" then
    let q := parser envVal
    if q.2 then
      let st1 : ExecState T := { st with out := st.out ++ [legacyEnvMsg envName typeName] }
      if isTestEnv then { st1 with target := q.1 } else { st1 with exitCode := some 2 }
    else { st with target := q.1 }
  else st

/-- `Binding.Bind` for a scalar target (src/binding.go lines 166-249: set the
default, run the env block of `handleVar`, register a `flag.Func` callback
when a flag name is given) composed with the external global `Parse` step
(src/binding.go lines 374-384): when the command line provides a value the
callback parses it and overwrites the target on success; a callback error
makes the ExitOnError flag set exit with status 2. -/
def BindScalar {T : Type} (isTestEnv : Bool) (defVal : T) (envName flagName typeName : String)
    (parser : String → T × Bool) (env : String → String) (flagArg : Option String) :
    BindEffect T :=
  let st1 := handleVarEnv isTestEnv envName typeName parser env
    { target := defVal, out := [], exitCode := none }
  if st1.exitCode.isSome then
    { target := st1.target, out := st1.out, exitCode := st1.exitCode, registeredFlags := [] }
  else if flagName = "" then
    { target := st1.target, out := st1.out, exitCode := st1.exitCode, registeredFlags := [] }
  else
    match flagArg with
    | none =>
      { target := st1.target, out := st1.out, exitCode := st1.exitCode,
        registeredFlags := [flagName] }
    | some s =>
      let q := parser s
      if q.2 then
        { target := st1.target, out := st1.out, exitCode := some 2,
          registeredFlags := [flagName] }
      else
        { target := q.1, out := st1.out, exitCode := st1.exitCode,
          registeredFlags := [flagName] }

/-- Loop body of the environment block of `handleSlice` (src/binding.go lines
388-406): for each delimited element, parse; on error print the diagnostic
and, unless `isTestEnv`, `os.Exit(2)` (stopping everything); otherwise append
the parser's returned value (the zero value on error) and continue. -/
def handleSliceEnvLoop {T : Type} (isTestEnv : Bool) (envName typeName : String)
    (parser : String → T × Bool) : List String → ExecState (List T) → ExecState (List T)
  | [], st => st
  | v :: rest, st =>
    let q := parser v
    if q.2 then
      let st1 : ExecState (List T) := { st with out := st.out ++ [legacyEnvMsg envName typeName] }
      if isTestEnv then
        handleSliceEnvLoop isTestEnv envName typeName parser rest
          { st1 with target := st1.target ++ [q.1] }
      else { st1 with exitCode := some 2 }
    else
      handleSliceEnvLoop isTestEnv envName typeName parser rest
        { st with target := st.target ++ [q.1] }

/-- Environment block of `handleSlice` (src/binding.go lines 388-406): when
the variable is non-empty, split it on the binding's separator and run the
element loop. -/
def handleSliceEnvPhase {T : Type} (isTestEnv : Bool) (envName sep typeName : String)
    (parser : String → T × Bool) (env : String → String) (st : ExecState (List T)) :
    ExecState (List T) :=
  let envVal := env envName
  if envVal ≠ "" then
    handleSliceEnvLoop isTestEnv envName typeName parser (goSplit envVal sep) st
  else st

/-- Loop of the `flag.Func` callback registered by `handleSlice`
(src/binding.go lines 409-420): append each parsed element; on the first
element whose parse fails, return the error, keeping the elements appended
so far. -/
def handleSliceFlagLoop {T : Type} (parser : String → T × Bool) :
    List String → List T → List T × Bool
  | [], acc => (acc, false)
  | v :: rest, acc =>
    let q := parser v
    if q.2 then (acc, true)
    else handleSliceFlagLoop parser rest (acc ++ [q.1])

/-- The `flag.Func` callback registered by `handleSlice` (src/binding.go
lines 409-420): split the flag's raw string on the separator and run the
append loop over the current target value. -/
def handleSliceFlagCallback {T : Type} (parser : String → T × Bool) (sep s : String)
    (cur : List T) : List T × Bool :=
  handleSliceFlagLoop parser (goSplit s sep) cur

/-- `Binding.Bind` for a slice target (src/binding.go lines 166-168 and
387-422) composed with the external global `Parse` step: set the default,
run the env block, register the callback when a flag name is given; when the
command line provides a value the callback appends its parsed elements, and
a callback error makes the ExitOnError flag set exit with status 2. -/
def BindSlice {T : Type} (isTestEnv : Bool) (defVal : List T)
    (envName flagName sep typeName : String) (parser : String → T × Bool)
    (env : String → String) (flagArg : Option String) : BindEffect (List T) :=
  let st1 := handleSliceEnvPhase isTestEnv envName sep typeName parser env
    { target := defVal, out := [], exitCode := none }
  if st1.exitCode.isSome then
    { target := st1.target, out := st1.out, exitCode := st1.exitCode, registeredFlags := [] }
  else if flagName = "" then
    { target := st1.target, out := st1.out, exitCode := st1.exitCode, registeredFlags := [] }
  else
    match flagArg with
    | none =>
      { target := st1.target, out := st1.out, exitCode := st1.exitCode,
        registeredFlags := [flagName] }
    | some s =>
      let r := handleSliceFlagCallback parser sep s st1.target
      if r.2 then
        { target := r.1, out := st1.out, exitCode := some 2, registeredFlags := [flagName] }
      else
        { target := r.1, out := st1.out, exitCode := st1.exitCode,
          registeredFlags := [flagName] }

/-! ### Error-handling policies (src/err.go) -/

/-- Effect of one error-policy invocation: what it writes to
`flag.CommandLine.Output()` and whether it exits the process. -/
structure HandlerEffect where
  out : List String
  exitCode : Option Nat
deriving DecidableEq

/-- The message composed by `OnErrorLogAndContinue` (src/err.go lines 26-37):
`unable to parse env-variable %q as type %T` when an env name is present,
else `unable to parse flag %q as type %T` when a flag name is present, else
the empty message; always written to `flag.CommandLine.Output()`. `%q` is
rendered as double quotes around the name (faithful for names without
escape-worthy characters) and `%T` as the target's type name. -/
def policyMsg (envName flagName typeName : String) : String :=
  if envName ≠ "" then
    "unable to parse env-variable \"" ++ envName ++ "\" as type " ++ typeName ++ "\n"
  else if flagName ≠ "" then
    "unable to parse flag \"" ++ flagName ++ "\" as type " ++ typeName ++ "\n"
  else ""

/-- `OnErrorLogAndContinue` (src/err.go lines 24-37): print the message,
keep running. -/
def OnErrorLogAndContinue (envName flagName typeName : String) : HandlerEffect :=
  { out := [policyMsg envName flagName typeName], exitCode := none }

/-- `OnErrorIgnore` (src/err.go lines 20-22): do nothing. -/
def OnErrorIgnore (_envName _flagName _typeName : String) : HandlerEffect :=
  { out := [], exitCode := none }

/-- `OnErrorExit` (src/err.go lines 14-18): run `OnErrorLogAndContinue`,
then `osExitFunc(2)`. -/
def OnErrorExit (envName flagName typeName : String) : HandlerEffect :=
  let logged := OnErrorLogAndContinue envName flagName typeName
  { out := logged.out, exitCode := some 2 }

/-- The three predefined values the replaceable `ErrorHandlerFunc` global
can take (src/err.go). -/
inductive ErrorPolicy
  | onErrorExit
  | onErrorIgnore
  | onErrorLogAndContinue
deriving DecidableEq

/-- Dispatch a policy value to its handler (the call through the
`ErrorHandlerFunc` variable). -/
def runPolicy : ErrorPolicy → String → String → String → HandlerEffect
  | .onErrorExit => OnErrorExit
  | .onErrorIgnore => OnErrorIgnore
  | .onErrorLogAndContinue => OnErrorLogAndContinue

/-- The default value of the `ErrorHandlerFunc` global:
`var ErrorHandlerFunc = OnErrorExit` (src/err.go line 12). -/
def ErrorHandlerFuncDefault : ErrorPolicy := .onErrorExit

/-- Modelled from the spec: the environment step of the current resolution
pipeline — the dispatch source file whose `handleVar` invokes the pluggable
`ErrorHandlerFunc` through `handleError` is not under src/ (only `err.go`,
which declares the policies and `handleError`, and its tests are). Per spec
sections 4.5 and 7: the raw string is parsed; on success the target is
overwritten; on failure the shared error policy is invoked with the raw
string, the target's current value and the env name, and the target keeps
whatever value it had before the failed parse. -/
def handleVarEnvPolicy {T : Type} (policy : ErrorPolicy) (envName typeName : String)
    (parser : String → T × Bool) (env : String → String) (st : ExecState T) : ExecState T :=
  let envVal := env envName
  if envVal ≠ "" then
    let q := parser envVal
    if q.2 then
      let eff := runPolicy policy envName "" typeName
      { st with out := st.out ++ eff.out,
                exitCode := match eff.exitCode with | some c => some c | none => st.exitCode }
    else { st with target := q.1 }
  else st

/-! ### Type-dispatch table (src/binder.go lines 85-328, src/flag.go) -/

/-- Runtime types admitted by the `Builtin`/`Bindable` generic constraints
(src/binding.go lines 45-56, src/flag.go): scalar, pointer-to-scalar and
slice forms of the supported semantic types. `urlPtrSlice` is `[]*url.URL`,
present in the `Bindable` constraint of src/flag.go. -/
inductive RType
  | bytes | str | strSlice
  | intT | intSlice | int64T | int64Slice
  | uintT | uintSlice | uint64T | uint64Slice
  | float64T | float64Slice
  | boolT | boolSlice
  | timeT | timePtr | timeSlice
  | durT | durSlice
  | urlT | urlPtr | urlSlice | urlPtrSlice
  | ipT | ipPtr | ipSlice
deriving DecidableEq

/-- What the dispatch type switch wires a target to: a scalar `handleVar`
call, a collection `handleSlice` call, or nothing at all. -/
inductive BindAction
  | scalar
  | collection
  | noop
deriving DecidableEq

/-- Transcription of the type switch of `Binding.Bind` in src/binder.go
lines 89-327: each `case` maps to the handler it calls. The `*[]string`
case (lines 103-104) has an empty body (a `TODO` comment), and `[]*url.URL`
has no case at all — the switch has no default clause, so both fall through
with no action. -/
def binderGoDispatch : RType → BindAction
  | .bytes => .scalar
  | .str => .scalar
  | .strSlice => .noop
  | .intT => .scalar
  | .intSlice => .collection
  | .int64T => .scalar
  | .int64Slice => .collection
  | .uintT => .scalar
  | .uintSlice => .collection
  | .uint64T => .scalar
  | .uint64Slice => .collection
  | .float64T => .scalar
  | .float64Slice => .collection
  | .boolT => .scalar
  | .boolSlice => .collection
  | .timeT => .scalar
  | .timePtr => .scalar
  | .timeSlice => .collection
  | .durT => .scalar
  | .durSlice => .collection
  | .urlT => .scalar
  | .urlPtr => .scalar
  | .urlSlice => .collection
  | .urlPtrSlice => .noop
  | .ipT => .scalar
  | .ipPtr => .scalar
  | .ipSlice => .collection

/-- `Binding.Bind` (src/binder.go lines 85-328) for a slice-shaped target,
parametrized by the action the type switch selected: the default is always
stored first (`*b.p = b.def`, line 87); a `scalar` action runs `handleVar`
with the whole-string parser (the `[]byte` decoder case), a `collection`
action runs `handleSlice`, and a `noop` action (empty or missing case) does
nothing further — no source is parsed and no flag is registered. -/
def BindSliceTyped {T : Type} (act : BindAction) (isTestEnv : Bool) (defVal : List T)
    (envName flagName sep typeName : String) (wholeParser : String → List T × Bool)
    (elemParser : String → T × Bool) (env : String → String) (flagArg : Option String) :
    BindEffect (List T) :=
  match act with
  | .scalar =>
    BindScalar isTestEnv defVal envName flagName typeName wholeParser env flagArg
  | .collection =>
    BindSlice isTestEnv defVal envName flagName sep typeName elemParser env flagArg
  | .noop =>
    { target := defVal, out := [], exitCode := none, registeredFlags := [] }

/-! ### Helper lemmas -/

/-- When every element parses, the env loop of `handleSlice` appends the
parsed values in order and touches nothing else. -/
theorem handleSliceEnvLoop_ok {T : Type} (isTestEnv : Bool) (envName typeName : String)
    (parser : String → T × Bool) (parts : List String) :
    ∀ (vs : List T) (st : ExecState (List T)), parseAllOk parser parts = some vs →
      handleSliceEnvLoop isTestEnv envName typeName parser parts st
        = { st with target := st.target ++ vs } := by
  induction parts with
  | nil =>
    intro vs st h
    simp [parseAllOk] at h
    subst h
    simp [handleSliceEnvLoop]
  | cons p rest ih =>
    intro vs st h
    simp only [parseAllOk] at h
    cases hq : (parser p).2 with
    | true => simp [hq] at h
    | false =>
      simp only [hq, if_neg Bool.false_ne_true, Option.map_eq_some'] at h
      obtain ⟨l, hl, rfl⟩ := h
      simp only [handleSliceEnvLoop, hq, if_neg Bool.false_ne_true]
      rw [ih l _ hl]
      simp

/-- When a prefix parses and the next element fails, the env loop of
`handleSlice` in non-test mode appends the prefix, prints one diagnostic
and exits with status 2, never reaching the remaining elements. -/
theorem handleSliceEnvLoop_cutoff {T : Type} (envName typeName : String)
    (parser : String → T × Bool) (pre : List String) :
    ∀ (vs : List T) (bad : String) (post : List String) (st : ExecState (List T)),
      parseAllOk parser pre = some vs → (parser bad).2 = true →
      handleSliceEnvLoop false envName typeName parser (pre ++ bad :: post) st
        = { target := st.target ++ vs,
            out := st.out ++ [legacyEnvMsg envName typeName],
            exitCode := some 2 } := by
  induction pre with
  | nil =>
    intro vs bad post st h hbad
    simp [parseAllOk] at h
    subst h
    simp [handleSliceEnvLoop, hbad]
  | cons p rest ih =>
    intro vs bad post st h hbad
    simp only [parseAllOk] at h
    cases hq : (parser p).2 with
    | true => simp [hq] at h
    | false =>
      simp only [hq, if_neg Bool.false_ne_true, Option.map_eq_some'] at h
      obtain ⟨l, hl, rfl⟩ := h
      simp only [List.cons_append, handleSliceEnvLoop, hq, if_neg Bool.false_ne_true,
        List.append_eq]
      rw [ih l bad post _ hl hbad]
      simp

/-- When a prefix parses and the next element fails, the flag callback loop
of `handleSlice` appends the prefix and returns an error without touching
the remaining elements. -/
theorem handleSliceFlagLoop_cutoff {T : Type} (parser : String → T × Bool)
    (pre : List String) :
    ∀ (vs : List T) (bad : String) (post : List String) (acc : List T),
      parseAllOk parser pre = some vs → (parser bad).2 = true →
      handleSliceFlagLoop parser (pre ++ bad :: post) acc = (acc ++ vs, true) := by
  induction pre with
  | nil =>
    intro vs bad post acc h hbad
    simp [parseAllOk] at h
    subst h
    simp [handleSliceFlagLoop, hbad]
  | cons p rest ih =>
    intro vs bad post acc h hbad
    simp only [parseAllOk] at h
    cases hq : (parser p).2 with
    | true => simp [hq] at h
    | false =>
      simp only [hq, if_neg Bool.false_ne_true, Option.map_eq_some'] at h
      obtain ⟨l, hl, rfl⟩ := h
      simp only [List.cons_append, handleSliceFlagLoop, hq, if_neg Bool.false_ne_true,
        List.append_eq]
      rw [ih l bad post _ hl hbad]
      simp

/-! ### Claim theorems -/

/-- C1 (priority law): for a binding of a supported type with default `d`, an
env string `e` that parses successfully and a flag string `f` that parses
successfully, after finalize and the global Parse step: with neither source
provided the target equals `d`; with only the env variable set it equals
`parse e`; and with the flag provided on the command line it equals
`parse f`, even though the env variable is also set. -/
theorem bind_priority_law {T : Type} (isTestEnv : Bool) (defVal ve vf : T)
    (envName flagName typeName e f : String) (parser : String → T × Bool)
    (envAbsent envSet : String → String)
    (habs : envAbsent envName = "") (hset : envSet envName = e) (hne : e ≠ "")
    (he : parser e = (ve, false)) (hf : parser f = (vf, false))
    (hflag : flagName ≠ "") :
    (BindScalar isTestEnv defVal envName flagName typeName parser envAbsent none).target = defVal
    ∧ (BindScalar isTestEnv defVal envName flagName typeName parser envSet none).target = ve
    ∧ (BindScalar isTestEnv defVal envName flagName typeName parser envSet
        (some f)).target = vf := by
  refine ⟨?_, ?_, ?_⟩
  · by_cases hfn : flagName = "" <;>
      simp [BindScalar, handleVarEnv, habs, hfn]
  · by_cases hfn : flagName = "" <;>
      simp [BindScalar, handleVarEnv, hset, hne, he, hfn]
  · simp [BindScalar, handleVarEnv, hset, hne, he, hf, hflag]

/-- Witness for C1 at the spec's scenario: `int` target, default 80,
`PORT=8080` in the environment, `-port 443` on the command line. -/
theorem bind_priority_law_witness :
    (BindScalar true (80 : Int) "PORT" "port" "int" goAtoi (fun _ => "") none).target = 80
    ∧ (BindScalar true (80 : Int) "PORT" "port" "int" goAtoi
        (fun n => if n = "PORT" then "8080" else "") none).target = 8080
    ∧ (BindScalar true (80 : Int) "PORT" "port" "int" goAtoi
        (fun n => if n = "PORT" then "8080" else "") (some "443")).target = 443 :=
  bind_priority_law true 80 8080 443 "PORT" "port" "int" "8080" "443" goAtoi
    (fun _ => "") (fun n => if n = "PORT" then "8080" else "")
    rfl (by decide) (by decide) (by decide) (by decide) (by decide)

/-- C8 (zero is significant): an environment value `"0"` parses to the zero
value and overwrites the default, whatever that default is — a zero-valued
string is never treated as absence. -/
theorem zero_env_overwrites_default (isTestEnv : Bool) (defVal : Int)
    (envName flagName typeName : String) (env : String → String)
    (henv : env envName = "0") :
    goAtoi "0" = (0, false)
    ∧ (BindScalar isTestEnv defVal envName flagName typeName goAtoi env none).target = 0 := by
  have h0 : goAtoi "0" = (0, false) := by decide
  refine ⟨h0, ?_⟩
  by_cases hfn : flagName = "" <;>
    simp [BindScalar, handleVarEnv, henv, h0, hfn]

/-- Witness for C8 at the spec's scenario: `int` target, default 5,
`ALERT_THRESHOLD=0` in the environment. -/
theorem zero_env_overwrites_default_witness :
    goAtoi "0" = (0, false)
    ∧ (BindScalar true (5 : Int) "ALERT_THRESHOLD" "" "int" goAtoi
        (fun n => if n = "ALERT_THRESHOLD" then "0" else "") none).target = 0 :=
  zero_env_overwrites_default true 5 "ALERT_THRESHOLD" "" "int"
    (fun n => if n = "ALERT_THRESHOLD" then "0" else "") (by decide)

/-- C9 (optional-absent semantics): for a pointer-to-scalar (optional)
target with no default, an absent (or empty) environment variable and no
flag value provided, the target after finalize and the global Parse step is
the explicit absent value `none` — not a freshly allocated zero-valued
instance — and nothing is printed and no exit occurs. -/
theorem optional_absent_nil {U : Type} (isTestEnv : Bool)
    (envName flagName typeName : String) (innerParser : String → U × Bool)
    (env : String → String) (henv : env envName = "") :
    (BindScalar isTestEnv (none : Option U) envName flagName typeName
        (goPtrParser innerParser) env none).target = none
    ∧ (BindScalar isTestEnv (none : Option U) envName flagName typeName
        (goPtrParser innerParser) env none).out = []
    ∧ (BindScalar isTestEnv (none : Option U) envName flagName typeName
        (goPtrParser innerParser) env none).exitCode = none := by
  refine ⟨?_, ?_, ?_⟩ <;>
    by_cases hfn : flagName = "" <;>
      simp [BindScalar, handleVarEnv, henv, hfn]

/-- Witness for C9: optional integer-like target, `PROMO_URL` unset,
no flag occurrence. -/
theorem optional_absent_nil_witness :
    (BindScalar true (none : Option Int) "PROMO_URL" "promo-url" "*int"
        (goPtrParser goAtoi) (fun _ => "") none).target = none
    ∧ (BindScalar true (none : Option Int) "PROMO_URL" "promo-url" "*int"
        (goPtrParser goAtoi) (fun _ => "") none).out = []
    ∧ (BindScalar true (none : Option Int) "PROMO_URL" "promo-url" "*int"
        (goPtrParser goAtoi) (fun _ => "") none).exitCode = none :=
  optional_absent_nil true "PROMO_URL" "promo-url" "*int" goAtoi (fun _ => "") rfl

/-- C2 (error containment): when the bound environment variable is set to a
string that fails to parse, the log-and-continue and ignore policies leave
the target at the value it had before the failed parse and do not exit,
while the default policy (`ErrorHandlerFunc = OnErrorExit`) is fatal. -/
theorem env_error_containment {T : Type} (envName typeName : String)
    (parser : String → T × Bool) (env : String → String) (st : ExecState T)
    (hne : env envName ≠ "") (hfail : (parser (env envName)).2 = true)
    (hex : st.exitCode = none) :
    (handleVarEnvPolicy .onErrorLogAndContinue envName typeName parser env st).target
      = st.target
    ∧ (handleVarEnvPolicy .onErrorLogAndContinue envName typeName parser env st).exitCode
      = none
    ∧ (handleVarEnvPolicy .onErrorIgnore envName typeName parser env st).target = st.target
    ∧ (handleVarEnvPolicy .onErrorIgnore envName typeName parser env st).exitCode = none
    ∧ (handleVarEnvPolicy ErrorHandlerFuncDefault envName typeName parser env st).exitCode
      = some 2 := by
  refine ⟨?_, ?_, ?_, ?_, ?_⟩ <;>
    simp [handleVarEnvPolicy, runPolicy, OnErrorLogAndContinue, OnErrorIgnore, OnErrorExit,
      ErrorHandlerFuncDefault, hne, hfail, hex]

/-- Witness for C2 at the test scenario of the repository: `uint`-style
target holding 80, `PORT=4-4-3` in the environment. -/
theorem env_error_containment_witness :
    (handleVarEnvPolicy .onErrorLogAndContinue "PORT" "uint" goAtoi
        (fun n => if n = "PORT" then "4-4-3" else "") ⟨80, [], none⟩).target = 80
    ∧ (handleVarEnvPolicy .onErrorLogAndContinue "PORT" "uint" goAtoi
        (fun n => if n = "PORT" then "4-4-3" else "") ⟨80, [], none⟩).exitCode = none
    ∧ (handleVarEnvPolicy .onErrorIgnore "PORT" "uint" goAtoi
        (fun n => if n = "PORT" then "4-4-3" else "") ⟨80, [], none⟩).target = 80
    ∧ (handleVarEnvPolicy .onErrorIgnore "PORT" "uint" goAtoi
        (fun n => if n = "PORT" then "4-4-3" else "") ⟨80, [], none⟩).exitCode = none
    ∧ (handleVarEnvPolicy ErrorHandlerFuncDefault "PORT" "uint" goAtoi
        (fun n => if n = "PORT" then "4-4-3" else "") ⟨80, [], none⟩).exitCode = some 2 :=
  env_error_containment "PORT" "uint" goAtoi
    (fun n => if n = "PORT" then "4-4-3" else "") ⟨80, [], none⟩
    (by decide) (by decide) rfl

/-- C5 counterexample: the parse-failure diagnostic emitted by the
`handleVar` of src/binding.go on a malformed environment value is
`Unable to parse env-variable PORT as type int` — capitalized and without
quotes around the name — which is not the format
`unable to parse env-variable "PORT" as type int` the claim mandates for
every diagnostic. -/
theorem diag_format_cex :
    (handleVarEnv true "PORT" "int" goAtoi
        (fun n => if n = "PORT" then "4-4-3" else "") ⟨80, [], none⟩).out
      = ["Unable to parse env-variable PORT as type int\n"]
    ∧ "Unable to parse env-variable PORT as type int\n"
      ≠ "unable to parse env-variable \"PORT\" as type int\n" := by
  constructor
  · decide
  · decide

/-- C5 (amended): diagnostics produced through the pluggable error policies
of src/err.go are written to the flag package's output stream with exactly
the claimed format — `unable to parse env-variable "X" as type T` for an
environment variable, `unable to parse flag "X" as type T` for a flag —
while the direct `handleVar` diagnostic of src/binding.go, on the same
stream, is the capitalized unquoted `Unable to parse env-variable X as
type T`. -/
theorem diag_format_amended {T : Type} (envName flagName typeName : String)
    (parser : String → T × Bool) (env : String → String) (st : ExecState T) :
    (envName ≠ "" → (OnErrorLogAndContinue envName flagName typeName).out
      = ["unable to parse env-variable \"" ++ envName ++ "\" as type " ++ typeName ++ "\n"])
    ∧ (envName = "" → flagName ≠ "" → (OnErrorLogAndContinue envName flagName typeName).out
      = ["unable to parse flag \"" ++ flagName ++ "\" as type " ++ typeName ++ "\n"])
    ∧ (env envName ≠ "" → (parser (env envName)).2 = true →
        (handleVarEnv true envName typeName parser env st).out
          = st.out ++ ["Unable to parse env-variable " ++ envName ++ " as type "
              ++ typeName ++ "\n"]) := by
  refine ⟨fun h => ?_, fun h h2 => ?_, fun h h2 => ?_⟩
  · simp [OnErrorLogAndContinue, policyMsg, h]
  · simp [OnErrorLogAndContinue, policyMsg, h, h2]
  · simp [handleVarEnv, legacyEnvMsg, h, h2]

/-- Witness for C5's amended statement: both message shapes at concrete
names. -/
theorem diag_format_amended_witness :
    (OnErrorLogAndContinue "PORT" "" "int").out
      = ["unable to parse env-variable \"PORT\" as type int\n"]
    ∧ (OnErrorLogAndContinue "" "port" "int").out
      = ["unable to parse flag \"port\" as type int\n"] :=
  ⟨(diag_format_amended (T := Int) "PORT" "" "int" goAtoi (fun _ => "") ⟨0, [], none⟩).1
      (by decide),
   (diag_format_amended (T := Int) "" "port" "int" goAtoi (fun _ => "") ⟨0, [], none⟩).2.1
      rfl (by decide)⟩

/-- C6 (fatal default policy): the default error policy is `OnErrorExit`,
which emits the diagnostic of `OnErrorLogAndContinue` and then exits with
status 2, for environment-variable contexts and flag contexts uniformly;
the legacy `handleVar` of src/binding.go likewise, outside test mode, exits
with status 2 right after printing its diagnostic on an environment parse
failure. -/
theorem default_policy_fatal {T : Type} (envName flagName typeName : String)
    (parser : String → T × Bool) (env : String → String) (st : ExecState T)
    (hne : env envName ≠ "") (hfail : (parser (env envName)).2 = true) :
    ErrorHandlerFuncDefault = ErrorPolicy.onErrorExit
    ∧ (runPolicy ErrorHandlerFuncDefault envName flagName typeName).exitCode = some 2
    ∧ (runPolicy ErrorHandlerFuncDefault envName flagName typeName).out
      = (OnErrorLogAndContinue envName flagName typeName).out
    ∧ (handleVarEnv false envName typeName parser env st).exitCode = some 2
    ∧ (handleVarEnv false envName typeName parser env st).out
      = st.out ++ [legacyEnvMsg envName typeName] := by
  refine ⟨rfl, rfl, rfl, ?_, ?_⟩ <;>
    simp [handleVarEnv, hne, hfail]

/-- Witness for C6: `PORT=4-4-3`, `int` target, default policy, production
(non-test) mode. -/
theorem default_policy_fatal_witness :
    ErrorHandlerFuncDefault = ErrorPolicy.onErrorExit
    ∧ (runPolicy ErrorHandlerFuncDefault "PORT" "port" "int").exitCode = some 2
    ∧ (runPolicy ErrorHandlerFuncDefault "PORT" "port" "int").out
      = (OnErrorLogAndContinue "PORT" "port" "int").out
    ∧ (handleVarEnv false "PORT" "int" goAtoi
        (fun n => if n = "PORT" then "4-4-3" else "") ⟨80, [], none⟩).exitCode = some 2
    ∧ (handleVarEnv false "PORT" "int" goAtoi
        (fun n => if n = "PORT" then "4-4-3" else "") ⟨80, [], none⟩).out
      = [] ++ [legacyEnvMsg "PORT" "int"] :=
  default_policy_fatal "PORT" "port" "int" goAtoi
    (fun n => if n = "PORT" then "4-4-3" else "") ⟨80, [], none⟩ (by decide) (by decide)

/-- C3 counterexample: for the `[]int` binding with `IDS=1,x,3` in the
environment, the env path of `handleSlice` (src/binding.go lines 388-406)
in its non-exiting (test) mode does not stop at the failing element `x`:
it appends the parser's zero result for `x` and then parses and appends
`3`, yielding `[1, 0, 3]` — the element after the failure is parsed and
appended, contradicting the claimed cutoff. -/
theorem slice_env_cutoff_cex :
    (handleSliceEnvPhase true "IDS" "," "[]int" goAtoi
        (fun n => if n = "IDS" then "1,x,3" else "") ⟨[], [], none⟩).target = [1, 0, 3]
    ∧ (3 : Int) ∈ (handleSliceEnvPhase true "IDS" "," "[]int" goAtoi
        (fun n => if n = "IDS" then "1,x,3" else "") ⟨[], [], none⟩).target
    ∧ (handleSliceEnvPhase true "IDS" "," "[]int" goAtoi
        (fun n => if n = "IDS" then "1,x,3" else "") ⟨[], [], none⟩).target ≠ [1] := by
  refine ⟨by decide, by decide, by decide⟩

/-- C3 (amended): the flag-callback path stops at the first failing element
— the successfully parsed prefix is kept, the failure is returned to the
flag package, and nothing after the failing element is parsed or appended.
The environment path stops at the first failure only in its default fatal
mode: it prints one diagnostic and exits with status 2 after appending the
prefix; in the non-exiting test mode it instead appends the parser's zero
result for the failing element and continues with the remaining elements. -/
theorem slice_cutoff_amended {T : Type} (parser : String → T × Bool)
    (sep s envName typeName : String) (pre post : List String) (bad : String)
    (vs : List T) (cur init : List T) (env : String → String)
    (hsplit : goSplit s sep = pre ++ bad :: post)
    (hpre : parseAllOk parser pre = some vs)
    (hbad : (parser bad).2 = true)
    (henv : env envName = s) (hs : s ≠ "") :
    handleSliceFlagCallback parser sep s cur = (cur ++ vs, true)
    ∧ handleSliceEnvPhase false envName sep typeName parser env ⟨init, [], none⟩
      = ⟨init ++ vs, [legacyEnvMsg envName typeName], some 2⟩ := by
  constructor
  · rw [handleSliceFlagCallback, hsplit]
    exact handleSliceFlagLoop_cutoff parser pre vs bad post cur hpre hbad
  · rw [handleSliceEnvPhase]
    simp only [henv, hs, ne_eq, not_false_iff, if_pos, hsplit]
    rw [handleSliceEnvLoop_cutoff envName typeName parser pre vs bad post _ hpre hbad]
    simp

/-- Witness for C3's amended statement: `1,x,3` with the `int` parser on
both paths. -/
theorem slice_cutoff_amended_witness :
    handleSliceFlagCallback goAtoi "," "1,x,3" ([] : List Int) = ([] ++ [1], true)
    ∧ handleSliceEnvPhase false "PORTS" "," "[]int" goAtoi
        (fun n => if n = "PORTS" then "1,x,3" else "") ⟨([] : List Int), [], none⟩
      = ⟨[] ++ [1], [legacyEnvMsg "PORTS" "[]int"], some 2⟩ :=
  slice_cutoff_amended goAtoi "," "1,x,3" "PORTS" "[]int" ["1"] ["3"] "x" [1] [] []
    (fun n => if n = "PORTS" then "1,x,3" else "")
    (by decide) (by decide) (by decide) (by decide) (by decide)

/-- C4 (collection round-trip): joining element strings that all parse
successfully with the binding's separator and resolving the slice binding
from that environment value, starting from an empty target, yields exactly
the element-wise parse of each part, in order. -/
theorem slice_env_roundtrip {T : Type} (isTestEnv : Bool) (parser : String → T × Bool)
    (parts : List String) (vs : List T) (sep envName flagName typeName : String)
    (env : String → String)
    (hsplit : goSplit (goJoin sep parts) sep = parts)
    (hok : parseAllOk parser parts = some vs)
    (henv : env envName = goJoin sep parts)
    (hne : goJoin sep parts ≠ "") :
    (BindSlice isTestEnv ([] : List T) envName flagName sep typeName parser env
        none).target = vs := by
  have hphase : handleSliceEnvPhase isTestEnv envName sep typeName parser env
      ⟨[], [], none⟩ = ⟨vs, [], none⟩ := by
    rw [handleSliceEnvPhase]
    simp only [henv, hne, ne_eq, not_false_iff, if_pos, hsplit]
    rw [handleSliceEnvLoop_ok isTestEnv envName typeName parser parts vs _ hok]
    simp
  by_cases hfn : flagName = "" <;>
    simp [BindSlice, hphase, hfn]

/-- Witness for C4 at the spec's scenario: `IDS=1,3,4`, separator `,`,
`[]int` target. -/
theorem slice_env_roundtrip_witness :
    (BindSlice true ([] : List Int) "IDS" "" "," "[]int" goAtoi
        (fun n => if n = "IDS" then goJoin "," ["1", "3", "4"] else "") none).target
      = [1, 3, 4] :=
  slice_env_roundtrip true goAtoi ["1", "3", "4"] [1, 3, 4] "," "IDS" "" "[]int"
    (fun n => if n = "IDS" then goJoin "," ["1", "3", "4"] else "")
    (by decide) (by decide) rfl (by decide)

/-- C10 (implicit — slice env values extend the default): a slice binding
finalized with a default and an environment value whose elements all parse
resolves to the default slice followed by the parsed environment elements:
the env loop appends to the target that already holds the default and never
resets it. -/
theorem slice_env_extends_default {T : Type} (isTestEnv : Bool)
    (parser : String → T × Bool) (defVal vs : List T)
    (envName flagName sep typeName : String) (env : String → String) (s : String)
    (henv : env envName = s) (hs : s ≠ "")
    (hok : parseAllOk parser (goSplit s sep) = some vs) :
    (BindSlice isTestEnv defVal envName flagName sep typeName parser env none).target
      = defVal ++ vs := by
  have hphase : handleSliceEnvPhase isTestEnv envName sep typeName parser env
      ⟨defVal, [], none⟩ = ⟨defVal ++ vs, [], none⟩ := by
    rw [handleSliceEnvPhase]
    simp only [henv, hs, ne_eq, not_false_iff, if_pos]
    rw [handleSliceEnvLoop_ok isTestEnv envName typeName parser (goSplit s sep) vs _ hok]
  by_cases hfn : flagName = "" <;>
    simp [BindSlice, hphase, hfn]

/-- Witness for C10: `[]int` target with default `[9]` and `IDS=1,3,4`
resolves to `[9, 1, 3, 4]`. -/
theorem slice_env_extends_default_witness :
    (BindSlice true [(9 : Int)] "IDS" "" "," "[]int" goAtoi
        (fun n => if n = "IDS" then "1,3,4" else "") none).target = [9] ++ [1, 3, 4] :=
  slice_env_extends_default true goAtoi [9] [1, 3, 4] "IDS" "" "," "[]int"
    (fun n => if n = "IDS" then "1,3,4" else "") "1,3,4" (by decide) (by decide) (by decide)

/-- C7 (unsupported-type silent no-op): the dispatch switch of
src/binder.go maps `[]string` (an empty `TODO` case, lines 103-104) and
`[]*url.URL` (no case at all) to no action, and a binding dispatched to no
action only stores the default: whatever the environment holds and whatever
the command line provides, the target equals the default after finalize and
the global Parse step, no flag is registered, nothing is printed and no
exit occurs. -/
theorem unsupported_type_noop {T : Type} (isTestEnv : Bool) (defVal : List T)
    (envName flagName sep typeName : String) (wholeParser : String → List T × Bool)
    (elemParser : String → T × Bool) (env : String → String) (flagArg : Option String) :
    binderGoDispatch RType.strSlice = BindAction.noop
    ∧ binderGoDispatch RType.urlPtrSlice = BindAction.noop
    ∧ binderGoDispatch RType.intSlice = BindAction.collection
    ∧ BindSliceTyped (binderGoDispatch RType.strSlice) isTestEnv defVal envName flagName
        sep typeName wholeParser elemParser env flagArg
      = { target := defVal, out := [], exitCode := none, registeredFlags := [] } := by
  exact ⟨rfl, rfl, rfl, rfl⟩

end Enflag
